import Mathlib

/-!
# PlayEarOne voice-command pipeline — verification development

Shallow embedding of the PlayEarOne core (audio buffering, speaker
identification, command extraction, result joining, player routing, and the
frontend enrollment manager) together with theorems settling the specified
behavioural properties.

Sources embedded:
* `VOICE_COMMAND_PIPELINE.md` — audio buffer, speaker identification (Stage B),
  the three-stage command extractor, result assembly, player assignment filter,
  and configuration constants.
* `DANCE_PLAN.md` — the dance-progress emission check in `_handle_audio`.
* the frontend enrollment module (`EnrollmentManager`).

Numeric modelling: the Python code computes with floats whose constants are
exact decimals (0.95, 0.30, …); we model scores and times as exact rationals.
Because `Rat.mul`/`Rat.add` do not reduce in the kernel, the embedding uses
`qadd`/`qmul`/`qsub` defined via `Rat.divInt`; they are proved extensionally
equal to `*`, `+`, `-` below.
-/

namespace PlayEarOne

/-! ## Exact rational arithmetic helpers -/

/-- Kernel-evaluable rational multiplication (equal to `*`, see `qmul_eq`). -/
def qmul (a b : ℚ) : ℚ := Rat.divInt (a.num * b.num) (a.den * b.den)

/-- Kernel-evaluable rational addition (equal to `+`, see `qadd_eq`). -/
def qadd (a b : ℚ) : ℚ := Rat.divInt (a.num * b.den + b.num * a.den) (a.den * b.den)

/-- Kernel-evaluable rational subtraction (equal to `-`, see `qsub_eq`). -/
def qsub (a b : ℚ) : ℚ := Rat.divInt (a.num * b.den - b.num * a.den) (a.den * b.den)

/-! ## Text utilities

Embeddings of the Python string operations used by the command parser:
`str.lower` (the vocabulary is ASCII, so ASCII lowering is exact here),
`str.strip`, and no-argument `str.split` (split on whitespace runs,
dropping empty words). -/

/-- `str.lower` on ASCII text. -/
def toLowerStr (s : String) : String := ⟨s.data.map Char.toLower⟩

/-- `str.strip`: remove leading and trailing whitespace. -/
def trimStr (s : String) : String :=
  ⟨((s.data.dropWhile Char.isWhitespace).reverse.dropWhile Char.isWhitespace).reverse⟩

/-- Helper for `splitWords`: accumulates the current word (reversed). -/
def splitWordsAux : List Char → List Char → List String
  | [], acc => if acc.isEmpty then [] else [⟨acc.reverse⟩]
  | c :: cs, acc =>
    if c.isWhitespace then
      if acc.isEmpty then splitWordsAux cs [] else ⟨acc.reverse⟩ :: splitWordsAux cs []
    else splitWordsAux cs (c :: acc)

/-- Python `str.split()` with no argument: words separated by whitespace runs. -/
def splitWords (s : String) : List String := splitWordsAux s.data []

/-! ## Command extractor (`backend/commands/parser.py`)

Three-stage fallback chain from `VOICE_COMMAND_PIPELINE.md` §8:
stage 1 direct match on the whole trimmed lowercased text (confidence 0.95);
stage 2 phonetic matching — whole-text phonetic lookup (0.85), then a
word-by-word scan checking each word against the vocabulary (0.80) and the
phonetic map (0.75), first hit wins; stage 3 LLM fallback, modelled by an
oracle argument since it is an external network call. -/

/-- `VALID_COMMANDS` from `backend/config.py`. -/
def VALID_COMMANDS : List String :=
  ["up", "down",
   "jab", "cross", "hook", "uppercut",
   "block", "guard", "dodge", "duck",
   "forward", "back", "left", "right",
   "start", "pause", "serve", "resume"]

/-- The static phonetic-alias table (misheard word → canonical command); the
entries listed in `VOICE_COMMAND_PIPELINE.md` (the source elides the rest of
its 150+ rows with a comment). -/
def phoneticMap : List (String × String) :=
  [("yup", "up"), ("yep", "up"), ("uh", "up"), ("app", "up"),
   ("dawn", "down"), ("town", "down"),
   ("job", "jab"), ("ja", "jab"),
   ("blog", "block"), ("box", "block"),
   ("doge", "dodge"), ("dok", "dodge")]

/-- Result of command extraction: `ParsedCommand` from the data model. -/
structure ParsedCommand where
  command : Option String
  raw_text : String
  confidence : ℚ
  stage : ℕ
deriving DecidableEq, Repr

/-- Stage-2 word scan: each word in transcript order is checked against the
vocabulary directly (confidence 0.80) and then against the phonetic map
(confidence 0.75); the first hit wins. -/
def wordScan (vocab : List String) : List String → Option (String × ℚ)
  | [] => none
  | w :: ws =>
    if w ∈ vocab then some (w, Rat.divInt 80 100)
    else
      match phoneticMap.lookup w with
      | some c => some (c, Rat.divInt 75 100)
      | none => wordScan vocab ws

/-- The three-stage extractor `extract(text, valid_commands)`. The `llm`
oracle stands for the stage-3 LLM call; `none` covers both "no command" and
the parser's failure/timeout path. -/
def extract (vocab : List String) (text : String)
    (llm : String → Option (String × ℚ)) : ParsedCommand :=
  let t := toLowerStr (trimStr text)
  if t ∈ vocab then
    { command := some t, raw_text := text, confidence := Rat.divInt 95 100, stage := 1 }
  else
    match phoneticMap.lookup t with
    | some c =>
      { command := some c, raw_text := text, confidence := Rat.divInt 85 100, stage := 2 }
    | none =>
      match wordScan vocab (splitWords t) with
      | some (c, conf) => { command := some c, raw_text := text, confidence := conf, stage := 2 }
      | none =>
        match llm text with
        | some (c, conf) => { command := some c, raw_text := text, confidence := conf, stage := 3 }
        | none => { command := none, raw_text := text, confidence := 0, stage := 3 }

/-! ## Speaker identification (`backend/speakers/identifier.py`, Stage B) -/

/-- An enrolled speaker: name plus stored (normalized) embedding. -/
structure SpeakerProfile where
  name : String
  embedding : List ℚ
deriving DecidableEq, Repr

/-- Result of identification. -/
structure SpeakerMatch where
  name : String
  confidence : ℚ
deriving DecidableEq, Repr

/-- `np.dot`: cosine similarity of already-normalized embeddings. -/
def dot : List ℚ → List ℚ → ℚ
  | a :: as, b :: bs => qadd (qmul a b) (dot as bs)
  | _, _ => 0

/-- `SPEAKER_GAME_THRESHOLD = 0.15` (caller-indicated gameplay mode) vs
`SPEAKER_SIMILARITY_THRESHOLD = 0.3` (general), from `backend/config.py`. -/
def similarityThreshold (gameMode : Bool) : ℚ :=
  if gameMode then Rat.divInt 15 100 else Rat.divInt 30 100

/-- Running-maximum scan over the remaining profiles; an earlier profile wins
ties (strict improvement required), i.e. first-encountered insertion order. -/
def bestGo (e : List ℚ) (best : String × ℚ) : List SpeakerProfile → String × ℚ
  | [] => best
  | p :: ps =>
    bestGo e (if dot e p.embedding > best.2 then (p.name, dot e p.embedding) else best) ps

/-- Best match (highest cosine similarity) over all enrolled profiles. -/
def bestMatch (e : List ℚ) : List SpeakerProfile → Option (String × ℚ)
  | [] => none
  | p :: ps => some (bestGo e (p.name, dot e p.embedding) ps)

/-- `identify(window)`. The `extracted` argument is the embedding-extraction
result; `none` models an extraction failure, which yields
`SpeakerMatch{"unknown", 0}` rather than an error. A below-threshold best
match also reports "unknown" (the source leaves its confidence unspecified;
we use the same neutral 0). -/
def identify (extracted : Option (List ℚ)) (profiles : List SpeakerProfile)
    (gameMode : Bool) : SpeakerMatch :=
  match extracted with
  | none => { name := "unknown", confidence := 0 }
  | some e =>
    match bestMatch e profiles with
    | none => { name := "unknown", confidence := 0 }
    | some (n, s) =>
      if s > similarityThreshold gameMode then { name := n, confidence := s }
      else { name := "unknown", confidence := 0 }

/-! ## Transcription, result joining, and event assembly -/

/-- A transcription result: `Transcript` from the data model. -/
structure Transcript where
  text : String
  engine : String
  latency : ℚ
deriving DecidableEq, Repr

/-- A `CommandEvent` draft before player routing (timestamp omitted: it is an
opaque wall-clock string irrelevant to every claim). -/
structure CommandDraft where
  speaker : String
  speaker_confidence : ℚ
  command : String
  raw_text : String
  command_confidence : ℚ
  volume : ℚ
deriving DecidableEq, Repr

/-- Modelled from the spec: the neutral default `SpeakerMatch "unknown"`
substituted when identification misses the join deadline
(`backend/ws/handler.py` is not in the repository snapshot). -/
def defaultSpeakerMatch : SpeakerMatch := { name := "unknown", confidence := 0 }

/-- Modelled from the spec: the neutral default empty `Transcript` substituted
when transcription misses the join deadline. -/
def defaultTranscript : Transcript := { text := "", engine := "", latency := 0 }

/-- Modelled from the spec: join-with-timeout of the two concurrent
recognition calls. `none` means the call exceeded the join deadline; the
missing result is replaced by its neutral default instead of blocking. -/
def joinResults (idRes : Option SpeakerMatch) (trRes : Option Transcript) :
    SpeakerMatch × Transcript :=
  (idRes.getD defaultSpeakerMatch, trRes.getD defaultTranscript)

/-- Command-result assembly (`VOICE_COMMAND_PIPELINE.md` §9): run extraction
on the transcript text and build a `CommandDraft` only when it yields a
command. -/
def assembleEvent (vocab : List String) (llm : String → Option (String × ℚ))
    (m : SpeakerMatch) (t : Transcript) (vol : ℚ) : Option CommandDraft :=
  match (extract vocab t.text llm).command with
  | none => none
  | some c =>
    some { speaker := m.name, speaker_confidence := m.confidence, command := c,
           raw_text := t.text, command_confidence := (extract vocab t.text llm).confidence,
           volume := vol }

/-- Per-window coordinator step after the concurrent dispatch: join the two
recognition outcomes under the deadline, then extract and assemble. -/
def processWindow (vocab : List String) (llm : String → Option (String × ℚ))
    (idRes : Option SpeakerMatch) (trRes : Option Transcript) (vol : ℚ) :
    Option CommandDraft :=
  let j := joinResults idRes trRes
  assembleEvent vocab llm j.1 j.2 vol

/-! ## Player router (`backend/config.py` + `backend/ws/handler.py` §10) -/

/-- `PLAYER_ASSIGNMENTS` from `backend/config.py`. -/
def PLAYER_ASSIGNMENTS : List (String × ℕ) := [("Jalen", 1), ("UP", 2)]

/-- A routed event: the draft with its resolved player slot attached. -/
structure RoutedEvent where
  player : ℕ
  event : CommandDraft
deriving DecidableEq, Repr

/-- The player assignment filter: `PLAYER_ASSIGNMENTS.get(result.speaker,
None)`; an unresolved speaker discards the event, a resolved one attaches the
player slot. -/
def route (assignments : List (String × ℕ)) (ev : CommandDraft) : Option RoutedEvent :=
  match assignments.lookup ev.speaker with
  | none => none
  | some p => some { player := p, event := ev }

/-! ## Audio buffer (`backend/audio/buffer.py`, §3 of the pipeline doc)

The buffer is a FIFO of samples (16 kHz mono; we model samples, the source
stores the same data as 2-byte PCM). Backlog protection: if the buffer
exceeds 1.0 s (16000 samples) the oldest audio is flushed, silently. The
consume operation removes one 500 ms window (8000 samples) when available. -/

/-- Buffer ceiling: 1.0 s of unconsumed audio at 16 kHz. -/
def BUFFER_CEILING_SAMPLES : ℕ := 16000

/-- Window size: 500 ms at 16 kHz. -/
def WINDOW_SAMPLES : ℕ := 8000

/-- Append a chunk, then flush the oldest samples beyond the 1.0 s ceiling. -/
def addChunk (buf chunk : List ℤ) : List ℤ :=
  let b := buf ++ chunk
  b.drop (b.length - BUFFER_CEILING_SAMPLES)

/-- Consume one 500 ms window from the oldest end when enough is buffered. -/
def consumeWindow (buf : List ℤ) : List ℤ :=
  if WINDOW_SAMPLES ≤ buf.length then buf.drop WINDOW_SAMPLES else buf

/-- One buffer operation: an append of an incoming chunk, or a consume. -/
inductive BufferOp where
  | add (chunk : List ℤ)
  | consume
deriving DecidableEq

/-- Apply one buffer operation. -/
def applyOp (buf : List ℤ) : BufferOp → List ℤ
  | .add c => addChunk buf c
  | .consume => consumeWindow buf

/-- Run a sequence of buffer operations. -/
def runBuffer (buf : List ℤ) : List BufferOp → List ℤ
  | [] => buf
  | op :: ops => runBuffer (applyOp buf op) ops

/-! ## Dance-progress emission check (`DANCE_PLAN.md`, `_handle_audio`)

At each audio-chunk arrival during dance recording the source evaluates
`int(elapsed) % 5 == 0 and elapsed > 0` and, when true, emits a progress
message. -/

/-- The source's progress condition at one chunk arrival with the given
elapsed time. -/
def progressCheckFires (elapsed : ℚ) : Prop :=
  Rat.floor elapsed % 5 = 0 ∧ 0 < elapsed

instance (elapsed : ℚ) : Decidable (progressCheckFires elapsed) :=
  inferInstanceAs (Decidable (_ ∧ _))

/-- Number of progress emissions over a schedule of chunk-arrival elapsed
times. -/
def progressEmissions (arrivals : List ℚ) : ℕ :=
  arrivals.countP (fun e => decide (progressCheckFires e))

/-! ## Frontend enrollment manager (`EnrollmentManager`)

The enrollment module is an event-driven state machine: DOM events (button
clicks gated by the buttons' `disabled` flags, name-field edits gated by the
field's `disabled` flag), the audio-capture callback (gated by whether capture
is running, forwarding chunks only `if (this.isEnrolling)`), the 100 ms
progress-interval tick (gated by whether the interval is running), and the two
backend messages. Outputs are the WebSocket messages the module sends. -/

/-- Frontend enrollment-manager state (fields mirror the class fields;
`progressActive` models whether `progressInterval` is set, `captureActive`
whether `audioCapture.start`'s callback is live). -/
structure EMState where
  isEnrolling : Bool
  enrollmentName : String
  enrollmentDuration : ℚ
  enrollmentStartTime : Option ℚ
  progressActive : Bool
  captureActive : Bool
  startBtnDisabled : Bool
  cancelBtnDisabled : Bool
  nameInputDisabled : Bool
  nameInputValue : String
deriving DecidableEq, Repr

/-- Events the enrollment manager reacts to. Audio chunks are identified by an
index; times are wall-clock seconds. -/
inductive EMEvent where
  | inputChange (value : String)
  | startClick (now : ℚ)
  | cancelClick
  | audioChunk (chunk : ℕ)
  | tick (now : ℚ)
  | enrollmentStarted (duration_seconds : Option ℚ)
  | enrollmentComplete (success : Bool) (name : String) (msg : String)
deriving DecidableEq

/-- Outbound WebSocket messages sent by the enrollment manager. -/
inductive WsMessage where
  | startEnrollment (name : String)
  | sendAudio (chunk : ℕ)
  | completeEnrollment (name : String)
  | cancelEnrollment
  | listSpeakers
deriving DecidableEq

/-- `handleEnrollmentStarted`: `this.enrollmentDuration =
message.duration_seconds || 5`. `none` models an absent or `null` field; a
present numeric `0` is falsy in JavaScript and also yields the default. -/
def handleEnrollmentStarted (duration_seconds : Option ℚ) : ℚ :=
  match duration_seconds with
  | none => 5
  | some q => if q = 0 then 5 else q

/-- `resetUI()`: leave enrolling mode, restore the controls, clear the
progress interval. -/
def resetUI (s : EMState) : EMState :=
  { s with
    isEnrolling := false
    startBtnDisabled := (trimStr s.nameInputValue).isEmpty
    cancelBtnDisabled := true
    nameInputDisabled := false
    progressActive := false }

/-- One reaction of the enrollment manager, returning the new state and the
messages sent. Click events on a disabled control and ticks of a cleared
interval are no-ops (DOM semantics). -/
def step (s : EMState) : EMEvent → EMState × List WsMessage
  | .inputChange v =>
    if s.nameInputDisabled then (s, [])
    else ({ s with nameInputValue := v, startBtnDisabled := (trimStr v).isEmpty }, [])
  | .startClick now =>
    if s.startBtnDisabled then (s, [])
    else
      let name := trimStr s.nameInputValue
      if name.isEmpty then (s, [])
      else
        ({ s with
            isEnrolling := true
            enrollmentName := name
            enrollmentStartTime := some now
            startBtnDisabled := true
            cancelBtnDisabled := false
            nameInputDisabled := true
            captureActive := true
            progressActive := true },
         [.startEnrollment name])
  | .cancelClick =>
    if s.cancelBtnDisabled then (s, [])
    else if s.isEnrolling then
      (resetUI { s with progressActive := false, captureActive := false },
       [.cancelEnrollment])
    else (s, [])
  | .audioChunk i =>
    if s.captureActive then (s, if s.isEnrolling then [.sendAudio i] else [])
    else (s, [])
  | .tick now =>
    if s.progressActive then
      match s.enrollmentStartTime with
      | none => (s, [])
      | some t0 =>
        if s.enrollmentDuration ≤ qsub now t0 then
          if s.isEnrolling then
            ({ s with progressActive := false, captureActive := false },
             [.completeEnrollment s.enrollmentName])
          else (s, [])
        else (s, [])
    else (s, [])
  | .enrollmentStarted d =>
    ({ s with enrollmentDuration := handleEnrollmentStarted d }, [])
  | .enrollmentComplete success _name _msg =>
    let s1 := resetUI { s with isEnrolling := false }
    if success then ({ s1 with nameInputValue := "" }, [.listSpeakers]) else (s1, [])

/-- State after `initialize()`: idle, empty name field (start button disabled
until a name is entered), cancel disabled, default 5 s duration. -/
def initState : EMState :=
  { isEnrolling := false
    enrollmentName := ""
    enrollmentDuration := 5
    enrollmentStartTime := none
    progressActive := false
    captureActive := false
    startBtnDisabled := true
    cancelBtnDisabled := true
    nameInputDisabled := false
    nameInputValue := "" }

/-- Run a sequence of events, discarding outputs. -/
def runEM (s : EMState) : List EMEvent → EMState
  | [] => s
  | e :: es => runEM (step s e).1 es

/-- Collect all messages sent over a sequence of events. -/
def collectOut (s : EMState) : List EMEvent → List WsMessage
  | [] => []
  | e :: es => (step s e).2 ++ collectOut (step s e).1 es

/-- Events that are neither user clicks nor backend messages: stray capture
callbacks and interval ticks. -/
def isPassiveEvent : EMEvent → Bool
  | .audioChunk _ => true
  | .tick _ => true
  | _ => false

/-- UI consistency invariant: while a session is recording, the start button
and the name field are disabled and the cancel button is enabled. -/
def EMInv (s : EMState) : Prop :=
  s.isEnrolling = true →
    s.startBtnDisabled = true ∧ s.nameInputDisabled = true ∧ s.cancelBtnDisabled = false

/-! ## Helper lemmas -/

theorem qmul_eq (a b : ℚ) : qmul a b = a * b := by
  unfold qmul
  rw [Rat.mul_def, Rat.normalize_eq_mkRat, ← Rat.divInt_ofNat]
  push_cast
  rfl

theorem qadd_eq (a b : ℚ) : qadd a b = a + b := by
  unfold qadd
  rw [Rat.add_def, Rat.normalize_eq_mkRat, ← Rat.divInt_ofNat]
  push_cast
  rfl

theorem qsub_eq (a b : ℚ) : qsub a b = a - b := by
  unfold qsub
  rw [Rat.sub_def, Rat.normalize_eq_mkRat, ← Rat.divInt_ofNat]
  push_cast
  rfl

theorem lookup_mem {α β : Type} [BEq α] [LawfulBEq α] {l : List (α × β)} {a : α} {b : β}
    (h : l.lookup a = some b) : (a, b) ∈ l := by
  induction l with
  | nil => simp [List.lookup] at h
  | cons p l ih =>
    obtain ⟨k, v⟩ := p
    by_cases hk : a == k
    · have hak : a = k := eq_of_beq hk
      simp [List.lookup, hk] at h
      subst hak
      subst h
      exact List.mem_cons_self _ _
    · simp only [List.lookup, hk] at h
      exact List.mem_cons_of_mem _ (ih h)

/-- Each key of the static phonetic table is a single whitespace-free word. -/
theorem phoneticMap_key_single : ∀ p ∈ phoneticMap, splitWords p.1 = [p.1] := by decide

/-- The word scan only ever reports the stage-2 confidences 0.80 (direct
vocabulary hit) and 0.75 (phonetic-alias hit). -/
theorem wordScan_conf {vocab : List String} {ws : List String} {c : String} {conf : ℚ}
    (h : wordScan vocab ws = some (c, conf)) :
    conf = Rat.divInt 80 100 ∨ conf = Rat.divInt 75 100 := by
  induction ws with
  | nil => simp [wordScan] at h
  | cons w ws ih =>
    rw [wordScan] at h
    by_cases hv : w ∈ vocab
    · rw [if_pos hv] at h
      left
      exact (Prod.mk.injEq _ _ _ _ ▸ (Option.some.injEq _ _ ▸ h)).2.symm
    · rw [if_neg hv] at h
      cases hm : phoneticMap.lookup w with
      | none => rw [hm] at h; exact ih h
      | some c0 =>
        rw [hm] at h
        right
        exact (Prod.mk.injEq _ _ _ _ ▸ (Option.some.injEq _ _ ▸ h)).2.symm

/-- The running-maximum scan returns its seed or a scanned profile, never
drops below the seed score, and dominates every scanned profile's score. -/
theorem bestGo_sound (e : List ℚ) (best : String × ℚ) (ps : List SpeakerProfile) :
    (bestGo e best ps = best ∨
      ∃ p ∈ ps, bestGo e best ps = (p.name, dot e p.embedding)) ∧
    best.2 ≤ (bestGo e best ps).2 ∧
    ∀ q ∈ ps, dot e q.embedding ≤ (bestGo e best ps).2 := by
  induction ps generalizing best with
  | nil => exact ⟨Or.inl rfl, le_refl _, by simp⟩
  | cons p ps ih =>
    rw [bestGo]
    by_cases hgt : dot e p.embedding > best.2
    · rw [if_pos hgt]
      obtain ⟨hmem, hge, hall⟩ := ih (p.name, dot e p.embedding)
      refine ⟨?_, le_trans (le_of_lt hgt) hge, ?_⟩
      · rcases hmem with h | ⟨q, hq, h⟩
        · exact Or.inr ⟨p, List.mem_cons_self _ _, h⟩
        · exact Or.inr ⟨q, List.mem_cons_of_mem _ hq, h⟩
      · intro q hq
        rcases List.mem_cons.mp hq with h | h
        · subst h; exact hge
        · exact hall q h
    · rw [if_neg hgt]
      obtain ⟨hmem, hge, hall⟩ := ih best
      refine ⟨?_, hge, ?_⟩
      · rcases hmem with h | ⟨q, hq, h⟩
        · exact Or.inl h
        · exact Or.inr ⟨q, List.mem_cons_of_mem _ hq, h⟩
      intro q hq
      rcases List.mem_cons.mp hq with h | h
      · subst h; exact le_trans (le_of_not_lt hgt) hge
      · exact hall q h

/-- A single buffer operation keeps the unconsumed length within the ceiling
(an append truncates to the ceiling unconditionally; a consume shrinks). -/
theorem applyOp_length (buf : List ℤ) (op : BufferOp)
    (h : buf.length ≤ BUFFER_CEILING_SAMPLES) :
    (applyOp buf op).length ≤ BUFFER_CEILING_SAMPLES := by
  cases op with
  | add c =>
    simp only [applyOp, addChunk, List.length_drop, List.length_append]
    omega
  | consume =>
    simp only [applyOp, consumeWindow]
    split
    · simp only [List.length_drop]; omega
    · exact h

/-- The enrollment-manager UI invariant holds initially. -/
theorem emInv_init : EMInv initState := by
  intro h
  simp [initState] at h

/-- The enrollment-manager UI invariant is preserved by every event. -/
theorem emInv_step (s : EMState) (e : EMEvent) (h : EMInv s) : EMInv (step s e).1 := by
  unfold EMInv at h ⊢
  cases e <;> simp only [step, resetUI, handleEnrollmentStarted] <;>
    (repeat' split) <;> simp_all

/-- The enrollment-manager UI invariant holds in every reachable state. -/
theorem emInv_run (s : EMState) (evs : List EMEvent) (h : EMInv s) :
    EMInv (runEM s evs) := by
  induction evs generalizing s with
  | nil => exact h
  | cons e es ih => exact ih _ (emInv_step s e h)

/-- With capture stopped and the progress interval cleared, stray capture
callbacks and interval ticks send nothing (and change nothing). -/
theorem collectOut_passive (s : EMState) (post : List EMEvent)
    (hc : s.captureActive = false) (hp : s.progressActive = false)
    (hpost : post.all isPassiveEvent = true) :
    collectOut s post = [] := by
  induction post generalizing s with
  | nil => rfl
  | cons e es ih =>
    rw [List.all_cons, Bool.and_eq_true] at hpost
    obtain ⟨he, hes⟩ := hpost
    cases e with
    | audioChunk i =>
      rw [collectOut]
      simp only [step, hc]
      simp only [Bool.false_eq_true, if_false, List.nil_append]
      exact ih s hc hp hes
    | tick now =>
      rw [collectOut]
      simp only [step, hp]
      simp only [Bool.false_eq_true, if_false, List.nil_append]
      exact ih s hc hp hes
    | inputChange v => simp [isPassiveEvent] at he
    | startClick now => simp [isPassiveEvent] at he
    | cancelClick => simp [isPassiveEvent] at he
    | enrollmentStarted d => simp [isPassiveEvent] at he
    | enrollmentComplete a b c => simp [isPassiveEvent] at he

/-! ## Claim theorems -/

/-- C8: for every transcript whose trimmed text is exactly equal,
case-insensitively, to some vocabulary entry, stage 1 of the Command
Extractor returns that entry as the command with confidence 0.95, without
invoking stages 2 or 3 (the reported stage is 1). The entries of the
configured vocabulary are lowercase, which the hypothesis `hlow` records. -/
theorem direct_match_stage1 (vocab : List String) (text : String)
    (llm : String → Option (String × ℚ)) (c : String)
    (hc : c ∈ vocab) (hlow : toLowerStr c = c)
    (heq : toLowerStr (trimStr text) = toLowerStr c) :
    extract vocab text llm =
      { command := some c, raw_text := text, confidence := Rat.divInt 95 100, stage := 1 } := by
  have ht : toLowerStr (trimStr text) = c := heq.trans hlow
  unfold extract
  simp only [ht, if_pos hc]

/-- Witness for C8: the transcript "  JAB " (to be trimmed, case-insensitive)
fires stage 1 on the configured vocabulary with confidence 0.95. -/
theorem direct_match_stage1_witness :
    extract VALID_COMMANDS "  JAB " (fun _ => none) =
      { command := some "jab", raw_text := "  JAB ",
        confidence := Rat.divInt 95 100, stage := 1 } :=
  direct_match_stage1 VALID_COMMANDS "  JAB " (fun _ => none) "jab"
    (by decide) (by decide) (by decide)

/-- C1: when the whole trimmed lowercased text is not a vocabulary entry and
the stage-2 word scan (each word in transcript order, vocabulary first, then
the phonetic-alias table, first hit wins) finds a hit, extraction returns
exactly that hit's command at stage 2 with a stage-2 confidence
(0.75/0.80 for word hits, 0.85 when the whole text is itself an alias — in
that case the whole text is the scan's first word, so the command agrees). -/
theorem word_scan_first_hit (vocab : List String) (text : String)
    (llm : String → Option (String × ℚ)) (c : String) (conf : ℚ)
    (hnv : toLowerStr (trimStr text) ∉ vocab)
    (hscan : wordScan vocab (splitWords (toLowerStr (trimStr text))) = some (c, conf)) :
    (extract vocab text llm).command = some c ∧ (extract vocab text llm).stage = 2 ∧
      (extract vocab text llm).confidence ∈
        [Rat.divInt 75 100, Rat.divInt 80 100, Rat.divInt 85 100] := by
  unfold extract
  simp only [if_neg hnv]
  cases hm : phoneticMap.lookup (toLowerStr (trimStr text)) with
  | none =>
    simp only [hm, hscan]
    rcases wordScan_conf hscan with h | h <;> simp [h]
  | some c0 =>
    have hsingle : splitWords (toLowerStr (trimStr text)) = [toLowerStr (trimStr text)] :=
      phoneticMap_key_single (toLowerStr (trimStr text), c0) (lookup_mem hm)
    rw [hsingle, wordScan, if_neg hnv, hm] at hscan
    have hc : c0 = c := by
      have := (Option.some.injEq _ _).mp hscan
      exact congrArg Prod.fst this
    simp only [hm]
    simp [hc]

/-- Witness for C1, the claim's example: vocabulary `{"up","down"}`,
transcript "yup down" with "yup" aliased to "up": extraction returns "up"
(the first word's alias hit) at stage 2 — not "down". -/
theorem word_scan_first_hit_witness :
    (extract ["up", "down"] "yup down" (fun _ => none)).command = some "up" ∧
    (extract ["up", "down"] "yup down" (fun _ => none)).stage = 2 ∧
    (extract ["up", "down"] "yup down" (fun _ => none)).confidence ∈
      [Rat.divInt 75 100, Rat.divInt 80 100, Rat.divInt 85 100] :=
  word_scan_first_hit ["up", "down"] "yup down" (fun _ => none) "up" (Rat.divInt 75 100)
    (by decide) (by decide)

/-- Unfolding of `identify` on a non-empty store, phrased with projections. -/
theorem identify_cons (e : List ℚ) (p : SpeakerProfile) (ps : List SpeakerProfile) (g : Bool) :
    identify (some e) (p :: ps) g =
      if (bestGo e (p.name, dot e p.embedding) ps).2 > similarityThreshold g
      then { name := (bestGo e (p.name, dot e p.embedding) ps).1,
             confidence := (bestGo e (p.name, dot e p.embedding) ps).2 }
      else { name := "unknown", confidence := 0 } := rfl

/-- C2: `identify` returns `SpeakerMatch{"unknown", 0}` on extraction
failure; whenever some enrolled profile's similarity exceeds the mode's
threshold (0.30 general, 0.15 gameplay) — i.e. the maximum does — the
identifier returns an enrolled profile's name with that profile's similarity
as the confidence, the similarity being maximal over the whole store and
above the threshold; and when every stored similarity is at or below the
threshold the answer is `SpeakerMatch{"unknown", 0}`. -/
theorem identify_max_similarity (profiles : List SpeakerProfile) (g : Bool) (e : List ℚ) :
    identify none profiles g = { name := "unknown", confidence := 0 } ∧
    (∀ p ∈ profiles, similarityThreshold g < dot e p.embedding →
      ∃ q ∈ profiles,
        identify (some e) profiles g = { name := q.name, confidence := dot e q.embedding } ∧
        similarityThreshold g < dot e q.embedding ∧
        ∀ r ∈ profiles, dot e r.embedding ≤ dot e q.embedding) ∧
    ((∀ q ∈ profiles, dot e q.embedding ≤ similarityThreshold g) →
      identify (some e) profiles g = { name := "unknown", confidence := 0 }) := by
  refine ⟨rfl, ?_, ?_⟩
  · intro p' hp' hthr'
    cases profiles with
    | nil => simp at hp'
    | cons p ps =>
      obtain ⟨hmem, hge, hall⟩ := bestGo_sound e (p.name, dot e p.embedding) ps
      have hdom : ∀ q ∈ p :: ps,
          dot e q.embedding ≤ (bestGo e (p.name, dot e p.embedding) ps).2 := by
        intro q hq
        rcases List.mem_cons.mp hq with h | h
        · subst h; exact hge
        · exact hall q h
      have hr2 : similarityThreshold g < (bestGo e (p.name, dot e p.embedding) ps).2 :=
        lt_of_lt_of_le hthr' (hdom p' hp')
      rw [identify_cons, if_pos hr2]
      rcases hmem with h | ⟨q, hq, h⟩
      · refine ⟨p, List.mem_cons_self _ _, ?_, ?_, ?_⟩
        · simp only [h]
        · rw [h] at hr2; exact hr2
        · rw [h] at hdom; exact hdom
      · refine ⟨q, List.mem_cons_of_mem _ hq, ?_, ?_, ?_⟩
        · simp only [h]
        · rw [h] at hr2; exact hr2
        · rw [h] at hdom; exact hdom
  · intro hbelow
    cases profiles with
    | nil => rfl
    | cons p ps =>
      rw [identify_cons]
      obtain ⟨hmem, hge, hall⟩ := bestGo_sound e (p.name, dot e p.embedding) ps
      have hr2 : (bestGo e (p.name, dot e p.embedding) ps).2 ≤ similarityThreshold g := by
        rcases hmem with h | ⟨q, hq, h⟩
        · rw [h]; exact hbelow p (List.mem_cons_self _ _)
        · rw [h]; exact hbelow q (List.mem_cons_of_mem _ hq)
      rw [if_neg (not_lt.mpr hr2)]

/-- Witness for C2, exercising the match path: with profiles Jalen
(similarity 0.5) and Maya (similarity 0.1) against the general threshold
0.30, identify returns Jalen with confidence 0.5 — concretely (by
evaluation) and through the theorem's positive direction. -/
theorem identify_max_similarity_witness :
    identify (some [(1 : ℚ)])
        [{ name := "Jalen", embedding := [Rat.divInt 1 2] },
         { name := "Maya", embedding := [Rat.divInt 1 10] }] false =
      { name := "Jalen", confidence := Rat.divInt 1 2 } ∧
    ∃ q ∈ [({ name := "Jalen", embedding := [Rat.divInt 1 2] } : SpeakerProfile),
           { name := "Maya", embedding := [Rat.divInt 1 10] }],
      identify (some [(1 : ℚ)])
          [{ name := "Jalen", embedding := [Rat.divInt 1 2] },
           { name := "Maya", embedding := [Rat.divInt 1 10] }] false =
        { name := q.name, confidence := dot [(1 : ℚ)] q.embedding } ∧
      similarityThreshold false < dot [(1 : ℚ)] q.embedding ∧
      ∀ r ∈ [({ name := "Jalen", embedding := [Rat.divInt 1 2] } : SpeakerProfile),
             { name := "Maya", embedding := [Rat.divInt 1 10] }],
        dot [(1 : ℚ)] r.embedding ≤ dot [(1 : ℚ)] q.embedding :=
  ⟨by decide,
   (identify_max_similarity
      [{ name := "Jalen", embedding := [Rat.divInt 1 2] },
       { name := "Maya", embedding := [Rat.divInt 1 10] }] false [(1 : ℚ)]).2.1
     { name := "Jalen", embedding := [Rat.divInt 1 2] } (by decide) (by decide)⟩

/-- C3: when identification misses the join deadline (`idRes = none`) while
transcription succeeded, the assembled event carries the neutral default —
speaker "unknown" with confidence 0 — while the command and raw text still
come from the successful transcript's extraction. -/
theorem join_timeout_defaults (vocab : List String) (llm : String → Option (String × ℚ))
    (t : Transcript) (vol : ℚ) (ev : CommandDraft)
    (h : processWindow vocab llm none (some t) vol = some ev) :
    ev.speaker = "unknown" ∧ ev.speaker_confidence = 0 ∧
      (extract vocab t.text llm).command = some ev.command ∧ ev.raw_text = t.text := by
  unfold processWindow joinResults assembleEvent at h
  simp only [Option.getD_none, Option.getD_some, defaultSpeakerMatch] at h
  cases hx : (extract vocab t.text llm).command with
  | none => rw [hx] at h; cases h
  | some c =>
    rw [hx] at h
    have hev := (Option.some.injEq _ _).mp h
    subst hev
    exact ⟨rfl, rfl, hx ▸ rfl, rfl⟩

/-- Witness for C3: identification timed out, transcription produced "jab";
the event is speaker "unknown"/0 with command "jab". -/
theorem join_timeout_defaults_witness :
    ({ speaker := "unknown", speaker_confidence := 0, command := "jab",
       raw_text := "jab", command_confidence := Rat.divInt 95 100,
       volume := 0 } : CommandDraft).speaker = "unknown" ∧
    ({ speaker := "unknown", speaker_confidence := 0, command := "jab",
       raw_text := "jab", command_confidence := Rat.divInt 95 100,
       volume := 0 } : CommandDraft).speaker_confidence = 0 ∧
    (extract VALID_COMMANDS "jab" (fun _ => none)).command = some
      ({ speaker := "unknown", speaker_confidence := 0, command := "jab",
         raw_text := "jab", command_confidence := Rat.divInt 95 100,
         volume := 0 } : CommandDraft).command ∧
    ({ speaker := "unknown", speaker_confidence := 0, command := "jab",
       raw_text := "jab", command_confidence := Rat.divInt 95 100,
       volume := 0 } : CommandDraft).raw_text = "jab" :=
  join_timeout_defaults VALID_COMMANDS (fun _ => none)
    { text := "jab", engine := "vosk", latency := 0 } 0 _ (by decide)

/-- C4: the Player Router discards a draft whose speaker is absent from the
assignment table (no event at all, hence never a forwarded event with a null
player); a speaker present in the table makes the event be emitted with the
resolved player slot attached and the draft unchanged; and conversely every
forwarded event carries exactly the looked-up slot. -/
theorem route_assignment (assignments : List (String × ℕ)) (ev : CommandDraft) :
    (assignments.lookup ev.speaker = none → route assignments ev = none) ∧
    (∀ p, assignments.lookup ev.speaker = some p →
      route assignments ev = some { player := p, event := ev }) ∧
    ∀ out, route assignments ev = some out →
      assignments.lookup ev.speaker = some out.player ∧ out.event = ev := by
  refine ⟨?_, ?_, ?_⟩
  · intro h
    unfold route
    rw [h]
  · intro p h
    unfold route
    rw [h]
  · intro out h
    unfold route at h
    cases hl : assignments.lookup ev.speaker with
    | none => rw [hl] at h; cases h
    | some p =>
      rw [hl] at h
      have := (Option.some.injEq _ _).mp h
      subst this
      exact ⟨rfl, rfl⟩

/-- Witness for C4, both paths: the speaker "unknown" is not in
`PLAYER_ASSIGNMENTS`, so that event is discarded; the speaker "Jalen" is
assigned, so that event is emitted with player slot 1 attached. -/
theorem route_assignment_witness :
    route PLAYER_ASSIGNMENTS
      { speaker := "unknown", speaker_confidence := 0, command := "up",
        raw_text := "up", command_confidence := Rat.divInt 95 100, volume := 0 } = none ∧
    route PLAYER_ASSIGNMENTS
      { speaker := "Jalen", speaker_confidence := Rat.divInt 1 2, command := "jab",
        raw_text := "jab", command_confidence := Rat.divInt 95 100, volume := 0 } =
      some { player := 1,
             event := { speaker := "Jalen", speaker_confidence := Rat.divInt 1 2,
                        command := "jab", raw_text := "jab",
                        command_confidence := Rat.divInt 95 100, volume := 0 } } :=
  ⟨(route_assignment PLAYER_ASSIGNMENTS
      { speaker := "unknown", speaker_confidence := 0, command := "up",
        raw_text := "up", command_confidence := Rat.divInt 95 100, volume := 0 }).1
      (by decide),
   (route_assignment PLAYER_ASSIGNMENTS
      { speaker := "Jalen", speaker_confidence := Rat.divInt 1 2, command := "jab",
        raw_text := "jab", command_confidence := Rat.divInt 95 100, volume := 0 }).2.1 1
      (by decide)⟩

/-- C5: starting within the ceiling, no sequence of appends and consumes ever
leaves more than 1.0 s (16000 samples) unconsumed — an oversized append is
truncated (silently, the operations are total) by dropping from the oldest
end, as the suffix property states. -/
theorem buffer_ceiling_invariant (buf : List ℤ) (ops : List BufferOp)
    (h : buf.length ≤ BUFFER_CEILING_SAMPLES) :
    (runBuffer buf ops).length ≤ BUFFER_CEILING_SAMPLES ∧
      ∀ chunk : List ℤ, (addChunk buf chunk).IsSuffix (buf ++ chunk) := by
  constructor
  · induction ops generalizing buf with
    | nil => exact h
    | cons op ops ih => exact ih _ (applyOp_length buf op h)
  · intro chunk
    exact List.drop_suffix _ _

/-- Witness for C5: two 9000-sample appends from empty stay within the
16000-sample ceiling. -/
theorem buffer_ceiling_invariant_witness :
    (runBuffer []
        [BufferOp.add (List.replicate 9000 0), BufferOp.add (List.replicate 9000 0)]).length ≤
      BUFFER_CEILING_SAMPLES :=
  (buffer_ceiling_invariant []
    [BufferOp.add (List.replicate 9000 0), BufferOp.add (List.replicate 9000 0)]
    (by decide)).1

/-- C6: in any reachable state with a recording session, a further start
request is rejected — the start button is disabled, so the click changes
nothing (target name, accumulator, start time all unchanged) and sends no
message (no second backend session). -/
theorem start_rejected_while_recording (evs : List EMEvent) (now : ℚ)
    (h : (runEM initState evs).isEnrolling = true) :
    step (runEM initState evs) (EMEvent.startClick now) = (runEM initState evs, []) := by
  have hd := (emInv_run initState evs emInv_init h).1
  simp [step, hd]

/-- Witness for C6: after entering a name and starting a session, a second
start click is a no-op. -/
theorem start_rejected_while_recording_witness :
    step (runEM initState [EMEvent.inputChange "Ann", EMEvent.startClick 0])
        (EMEvent.startClick 7) =
      (runEM initState [EMEvent.inputChange "Ann", EMEvent.startClick 0], []) :=
  start_rejected_while_recording [EMEvent.inputChange "Ann", EMEvent.startClick 0] 7
    (by decide)

/-- C7: cancelling an active session stops the capture callback and clears
the progress interval, so every subsequently delivered audio chunk (and every
stray tick) sends nothing at all — in particular no audio is forwarded into
the session's accumulator and no completion message (the trigger for
embedding extraction) is ever sent. -/
theorem cancel_stops_audio (evs post : List EMEvent)
    (h : (runEM initState evs).isEnrolling = true)
    (hpost : post.all isPassiveEvent = true) :
    collectOut (step (runEM initState evs) EMEvent.cancelClick).1 post = [] := by
  have hcb := (emInv_run initState evs emInv_init h).2.2
  have hstep : (step (runEM initState evs) EMEvent.cancelClick).1 =
      resetUI { runEM initState evs with progressActive := false, captureActive := false } := by
    simp [step, hcb, h]
  rw [hstep]
  exact collectOut_passive _ post (by simp [resetUI]) (by simp [resetUI]) hpost

/-- Witness for C7: cancel after a started session; two later audio chunks
and a tick produce no outbound messages. -/
theorem cancel_stops_audio_witness :
    collectOut
        (step (runEM initState [EMEvent.inputChange "Ann", EMEvent.startClick 0])
          EMEvent.cancelClick).1
        [EMEvent.audioChunk 1, EMEvent.tick 9, EMEvent.audioChunk 2] = [] :=
  cancel_stops_audio [EMEvent.inputChange "Ann", EMEvent.startClick 0]
    [EMEvent.audioChunk 1, EMEvent.tick 9, EMEvent.audioChunk 2]
    (by decide) (by decide)

/-- C9: the progress-emission check `int(elapsed) % 5 == 0 and elapsed > 0`
is schedule-dependent: within the single 5-second period `[5, 10)` there is a
chunk-arrival schedule on which it fires twice, and one on which it never
fires. -/
theorem progress_check_zero_or_many :
    (∀ e ∈ [Rat.divInt 51 10, Rat.divInt 52 10], (5 : ℚ) ≤ e ∧ e < 10) ∧
    progressEmissions [Rat.divInt 51 10, Rat.divInt 52 10] = 2 ∧
    (∀ e ∈ [(6 : ℚ), 7, 8, 9], (5 : ℚ) ≤ e ∧ e < 10) ∧
    progressEmissions [(6 : ℚ), 7, 8, 9] = 0 := by decide

/-- C10: `handleEnrollmentStarted` falls back to the 5-second default when
`duration_seconds` is absent/null (`none`) or the falsy `0`, and adopts any
other value exactly. -/
theorem enrollment_duration_default :
    handleEnrollmentStarted none = 5 ∧
    handleEnrollmentStarted (some 0) = 5 ∧
    ∀ q : ℚ, q ≠ 0 → handleEnrollmentStarted (some q) = q := by
  refine ⟨rfl, by simp [handleEnrollmentStarted], fun q hq => ?_⟩
  simp [handleEnrollmentStarted, hq]

/-- Witness for C10: a truthy value (7) is adopted exactly. -/
theorem enrollment_duration_default_witness :
    handleEnrollmentStarted (some 7) = 7 :=
  enrollment_duration_default.2.2 7 (by decide)

end PlayEarOne
